import Mathlib

/-
Verification development for the plottable chart-support library core:
the logarithmic scale (src/scales/logScale.ts) and the formatter suite
(formatters module).

Modelling conventions:
- JavaScript numbers are modelled as exact rationals (ℚ).  All concrete
  inputs exercised by the claims produce exactly representable IEEE-754
  doubles along every intermediate step, so the exact-rational trace
  coincides with the floating-point trace, with one documented exception:
  the double quotient Math.log(1000)/Math.log(10) = 2.9999999999999996,
  which is recorded explicitly as the constant jsLog1000OverLog10.
- Integer floor/ceil/round of base-b logarithms of positive rationals are
  computed exactly (natLogFloor/natLogCeil and friends).
- The continuous log transform (scale/invert), which lives in the external
  d3 dependency, is modelled over ℝ for the round-trip claim.
- Fallible constructors are modelled with Except: the source throws.
-/

attribute [local semireducible] Rat.ofScientific Rat.mul Rat.inv Rat.add Rat.sub

/-- Integer power of a rational with an integer exponent (JavaScript
`Math.pow(b, i)` for integer `i`; exact here). -/
def qpow (b : ℚ) (i : ℤ) : ℚ :=
  match i with
  | .ofNat n => b ^ n
  | .negSucc n => (b ^ (n + 1))⁻¹

/-- Fuel-driven computation of `Nat.log`: greatest `k` with `b ^ k ≤ n`
(for `b ≥ 2`, `n ≥ 1`); written with explicit fuel so that the kernel can
evaluate it. -/
def natLogFloorAux (b : ℕ) : ℕ → ℕ → ℕ
  | 0, _ => 0
  | fuel + 1, n => if n < b then 0 else natLogFloorAux b fuel (n / b) + 1

/-- Greatest `k` with `b ^ k ≤ n` (for `b ≥ 2`, `n ≥ 1`). -/
def natLogFloor (b n : ℕ) : ℕ := natLogFloorAux b n n

/-- Fuel-driven computation of the ceiling logarithm. -/
def natLogCeilAux (b : ℕ) : ℕ → ℕ → ℕ
  | 0, _ => 0
  | fuel + 1, n => if n ≤ 1 then 0 else natLogCeilAux b fuel ((n + b - 1) / b) + 1

/-- Least `k` with `n ≤ b ^ k` (for `b ≥ 2`, `n ≥ 1`). -/
def natLogCeil (b n : ℕ) : ℕ := natLogCeilAux b n n

/-- `⌊log_b q⌋` for a positive rational `q`, computed exactly.  The source
computes `Math.floor(Math.log(q)/Math.log(b))` on doubles; on every input
exercised by the claims the two agree (the one divergence, at the floor of
`log10 1000`, is modelled separately via `jsLog1000OverLog10`).  For
`q ≤ 0` the source produces NaN and never uses the result in a claim;
the model returns 0 there. -/
def floorLogB (b : ℕ) (q : ℚ) : ℤ :=
  if 1 ≤ q then (natLogFloor b ⌊q⌋.toNat : ℤ)
  else if 0 < q then -(natLogCeil b ⌈q⁻¹⌉.toNat : ℤ)
  else 0

/-- `⌈log_b q⌉` for a positive rational `q`, computed exactly. -/
def ceilLogB (b : ℕ) (q : ℚ) : ℤ :=
  if 1 ≤ q then (natLogCeil b ⌈q⌉.toNat : ℤ)
  else if 0 < q then -(natLogFloor b ⌊q⁻¹⌋.toNat : ℤ)
  else 0

/-- JavaScript `Math.round(log_b q)` (round-half-up) for positive rational
`q`, computed exactly: `round x = ⌊x + 1/2⌋` and
`⌊(1 + 2·log_b q) / 2⌋ = ⌊⌊log_b (b·q²)⌋ / 2⌋`; a tie `log_b q = n - 1/2`
would make `q` irrational, so it cannot occur. -/
def roundLogB (b : ℕ) (q : ℚ) : ℤ := (floorLogB b ((b : ℚ) * q ^ 2)).fdiv 2

/-- JavaScript `Math.round`: round half toward positive infinity. -/
def jsRound (q : ℚ) : ℤ := ⌊q + 1/2⌋

/-- Left-pad a digit string with zeros up to length `len`. -/
def padZeros (len : ℕ) (s : String) : String :=
  String.mk (List.replicate (len - s.length) '0') ++ s

/-- Decimal digits of the fractional part of `q ∈ [0, 1)`, with fuel.
Every value the claims exercise has a terminating decimal expansion well
inside the fuel bound, matching the digits JavaScript prints. -/
def fracDigitsAux : ℕ → ℚ → String
  | 0, _ => ""
  | fuel + 1, q =>
    let d := ⌊q * 10⌋.toNat
    let r := q * 10 - (d : ℚ)
    if r = 0 then toString d else toString d ++ fracDigitsAux fuel r

/-- JavaScript `Number.prototype.toString` for a nonnegative rational with
a terminating decimal expansion (the only inputs the claims exercise). -/
def ratToJsStringNonneg (q : ℚ) : String :=
  let ip := ⌊q⌋.toNat
  let fr := q - (ip : ℚ)
  if fr = 0 then toString ip else toString ip ++ "." ++ fracDigitsAux 20 fr

/-- JavaScript `Number.prototype.toString` (`String(d)` in the source) for
rationals with terminating decimal expansions. -/
def ratToJsString (q : ℚ) : String :=
  if q < 0 then "-" ++ ratToJsStringNonneg (-q) else ratToJsStringNonneg q

/-- ECMA-262 `Number.prototype.toFixed p` for a nonnegative rational:
the integer `n` with `n / 10^p` closest to the value, ties to the larger
`n`, rendered with exactly `p` decimal places. -/
def toFixedNonneg (p : ℕ) (q : ℚ) : String :=
  let n := (⌊q * (10 : ℚ) ^ p + 1/2⌋).toNat
  if p = 0 then toString n
  else toString (n / 10 ^ p) ++ "." ++ padZeros p (toString (n % 10 ^ p))

/-- ECMA-262 `Number.prototype.toFixed p` (sign extracted first, as the
standard prescribes).  d3-format's `".pf"` formatter delegates to it. -/
def toFixedQ (p : ℕ) (q : ℚ) : String :=
  if q < 0 then "-" ++ toFixedNonneg p (-q) else toFixedNonneg p q

/-- d3-format's `".pe"` exponent formatter (`Number.prototype.toExponential`
semantics): mantissa with `p` decimal places, explicitly signed exponent. -/
def d3ExpFmt (p : ℕ) (x : ℚ) : String :=
  if x = 0 then
    (if p = 0 then "0" else "0." ++ padZeros p "") ++ "e+0"
  else
    let sgn := if x < 0 then "-" else ""
    let a := |x|
    let e := floorLogB 10 a
    let n := (⌊a / qpow 10 e * (10 : ℚ) ^ p + 1/2⌋).toNat
    let ne : ℕ × ℤ := if n = 10 ^ (p + 1) then (10 ^ p, e + 1) else (n, e)
    let mantissa :=
      if p = 0 then toString ne.1
      else toString (ne.1 / 10 ^ p) ++ "." ++ padZeros p (toString (ne.1 % 10 ^ p))
    sgn ++ mantissa ++ "e" ++ (if 0 ≤ ne.2 then "+" ++ toString ne.2 else toString ne.2)

/-- JavaScript `String.prototype.indexOf "."`: character index of the first
dot, `-1` when absent. -/
def jsIndexOfDot (s : String) : ℤ :=
  match s.data.findIdx? (· = '.') with
  | some i => (i : ℤ)
  | none => -1

/-- JavaScript `parseInt(s, 10)` restricted to the strings the source feeds
it: an optional minus sign followed by leading decimal digits (digits after
a dot are discarded, exactly as `parseInt` stops at the first non-digit). -/
def jsParseInt (s : String) : ℤ :=
  match s.data with
  | '-' :: t => -(((t.takeWhile Char.isDigit).foldl (fun acc c => acc * 10 + (c.toNat - 48)) 0 : ℕ) : ℤ)
  | t => (((t.takeWhile Char.isDigit).foldl (fun acc c => acc * 10 + (c.toNat - 48)) 0 : ℕ) : ℤ)

/-- `verifyPrecision` (formatters module): precision must lie in `[0, 20]`
and be an integer; violations throw a `RangeError` (modelled as
`Except.error`) before any formatter closure is produced. -/
def verifyPrecision (precision : ℚ) : Except String Unit :=
  if precision < 0 ∨ precision > 20 then
    Except.error "Formatter precision must be between 0 and 20"
  else if precision ≠ (⌊precision⌋ : ℚ) then
    Except.error "Formatter precision must be an integer"
  else Except.ok ()

/-- `fixed(precision)`: validates eagerly, then returns the closure
`d ↦ d.toFixed(precision)`. -/
def fixed (precision : ℚ) : Except String (ℚ → String) :=
  (verifyPrecision precision).map fun _ => fun d => toFixedQ ⌊precision⌋.toNat d

/-- `general(maxNumberOfDecimalPlaces)`: validates eagerly, then returns
`d ↦ String(Math.round(d * 10^N) / 10^N)` (numeric inputs; non-numbers are
out of the rational embedding). -/
def general (maxNumberOfDecimalPlaces : ℚ) : Except String (ℚ → String) :=
  (verifyPrecision maxNumberOfDecimalPlaces).map fun _ => fun d =>
    let multiplier := (10 : ℚ) ^ ⌊maxNumberOfDecimalPlaces⌋.toNat
    ratToJsString ((jsRound (d * multiplier) : ℚ) / multiplier)

/-- The `superscript_dict` lookup of `unicode_superscript`, as a function:
digits, `+`, `-` and `.` map to their unicode superscript forms, everything
else to itself. -/
def superscriptDict (c : Char) : Char :=
  match c with
  | '0' => '\u2070'
  | '1' => '\u00b9'
  | '2' => '\u00b2'
  | '3' => '\u00b3'
  | '4' => '\u2074'
  | '5' => '\u2075'
  | '6' => '\u2076'
  | '7' => '\u2077'
  | '8' => '\u2078'
  | '9' => '\u2079'
  | '+' => '\u207a'
  | '-' => '\u207b'
  | '.' => '\u22c5'
  | c => c

/-- `unicode_superscript`: map every character of a string through
`superscriptDict`. -/
def unicode_superscript (s : String) : String :=
  String.mk (s.data.map superscriptDict)

/-- The body of the `exponential` closure after the exponent `e` has been
computed, factored out so that the floating-point value of `e` actually
produced by the source at `d = 1000` can be substituted: mantissa
`m = sign·d / 10^e` rounded to `p` decimal places through the
multiply-round-divide technique, then rendered per the three branches of
the source (`e = 0`, rounded mantissa exactly 1, general case). -/
def exponentialCore (p : ℕ) (d : ℚ) (e : ℤ) : String :=
  let multiplier : ℚ := (10 : ℚ) ^ p
  let sign : ℚ := if d < 0 then -1 else 1
  let m : ℚ := sign * d / qpow 10 e
  let m_rounded : ℚ := (jsRound (m * multiplier) : ℚ) / multiplier
  if e = 0 then ratToJsString (sign * m_rounded)
  else if m_rounded = 1 then
    if sign > 0 then "10" ++ unicode_superscript (toString e)
    else "-10" ++ unicode_superscript (toString e)
  else ratToJsString (sign * m_rounded) ++ "\u00d710" ++ unicode_superscript (toString e)

/-- The `exponential(maxNumberOfDecimalPlaces)` closure with the exponent
`e = Math.floor(Math.log(sign*d)/Math.log(10))` computed exactly
(`e = ⌊log₁₀(sign·d)⌋`).  `d = 0` is stringified directly as in the
source; `undefined`/NaN/±Infinity are not representable in ℚ (they also
take the direct-stringification branch in the source). -/
def exponentialFmt (p : ℕ) (d : ℚ) : String :=
  if d = 0 then ratToJsString d
  else
    let sign : ℚ := if d < 0 then -1 else 1
    exponentialCore p d (floorLogB 10 (sign * d))

/-- `exponential(maxNumberOfDecimalPlaces)`: eager validation, then the
closure. -/
def exponential (maxNumberOfDecimalPlaces : ℚ) : Except String (ℚ → String) :=
  (verifyPrecision maxNumberOfDecimalPlaces).map fun _ => fun d =>
    exponentialFmt ⌊maxNumberOfDecimalPlaces⌋.toNat d

/-- The exact rational value of the IEEE-754 double
`Math.log(1000)/Math.log(10) = 2.9999999999999996`
(= `0x1.7ffffffffffffp+1 = 6755399441055743 / 2^51`): both logarithms are
the correctly rounded doubles `6.907755278982137` and `2.302585092994046`,
and their IEEE quotient rounds to just below 3. -/
def jsLog1000OverLog10 : ℚ := 6755399441055743 / 2251799813685248

/-- The string the source actually produces for `exponential(3)(1000)`:
`exponentialCore` at the exponent `e = Math.floor(jsLog1000OverLog10) = 2`
the floating-point code computes (every other intermediate value at this
input is an exactly representable double, so the rational trace is the
double trace). -/
def exponentialJs1000 : String := exponentialCore 3 1000 ⌊jsLog1000OverLog10⌋

/-- The string the source actually produces for `exponential(3)(-1000)`:
same floating-point exponent, negative sign path. -/
def exponentialJsNeg1000 : String := exponentialCore 3 (-1000) ⌊jsLog1000OverLog10⌋

/-- The `percentage(precision)` closure: multiply by 100, then correct for
binary floating-point drift by re-deriving an integer power-of-ten scale
from the string representation of the input and rounding through it via
`parseInt`, then format with `fixed` semantics and append `%`. -/
def percentageFmt (p : ℕ) (d : ℚ) : String :=
  let valToFormat := d * 100
  let valString := ratToJsString d
  let integerPowerTen := qpow 10 ((valString.length : ℤ) - (jsIndexOfDot valString + 1))
  let corrected := (jsParseInt (ratToJsString (valToFormat * integerPowerTen)) : ℚ) / integerPowerTen
  toFixedQ p corrected ++ "%"

/-- `percentage(precision)`: constructing the inner `fixed` formatter
validates the precision eagerly. -/
def percentage (precision : ℚ) : Except String (ℚ → String) :=
  (verifyPrecision precision).map fun _ => fun d => percentageFmt ⌊precision⌋.toNat d

/-- The short-scale suffix ladder `"KMBTQ"`. -/
def shortScaleSuffixes : List Char := ['K', 'M', 'B', 'T', 'Q']

/-- The `while` loop of `shortScale`: starting from `idx = -1`, increment
while `|num| ≥ 1000^(idx+2)` and `idx < suffixes.length - 1`.  Written with
fuel (6 iterations bound the loop: `idx` can only climb from -1 to 4). -/
def shortScaleIdxAux (absNum : ℚ) : ℕ → ℤ → ℤ
  | 0, idx => idx
  | fuel + 1, idx =>
    if (1000 : ℚ) ^ (idx + 2).toNat ≤ absNum ∧ idx < (shortScaleSuffixes.length : ℤ) - 1 then
      shortScaleIdxAux absNum fuel (idx + 1)
    else idx

/-- The suffix-tier index selected by `shortScale` for `|num|`. -/
def shortScaleIdx (absNum : ℚ) : ℤ := shortScaleIdxAux absNum 6 (-1)

/-- `suffixes[idx]` as a one-character string. -/
def shortScaleSuffixAt (idx : ℤ) : String :=
  String.singleton (shortScaleSuffixes.getD idx.toNat ' ')

/-- The first-pass output of `shortScale` (before the rounding
correction): plain fixed format at tier -1, otherwise the value scaled
down by `1000^(idx+1)` with the tier's suffix letter appended. -/
def shortScaleFirstOutput (p : ℕ) (num : ℚ) (idx : ℤ) : String :=
  if idx = -1 then toFixedQ p num
  else toFixedQ p (num / (1000 : ℚ) ^ (idx + 1).toNat) ++ shortScaleSuffixAt idx

/-- The `shortScale(precision)` closure: scientific notation outside
`[10^-precision, 10^(3·(suffixes.length+1)))` (except exact zero), else a
suffix tier chosen by the `while` loop, with the post-hoc correction that
bumps a `1000…`-displaying output to the next tier (or to scientific
notation at the top tier). -/
def shortScaleFmt (p : ℕ) (num : ℚ) : String :=
  let absNum := |num|
  let maxV : ℚ := (10 : ℚ) ^ (3 * (shortScaleSuffixes.length + 1))
  let minV : ℚ := qpow 10 (-(p : ℤ))
  if (absNum < minV ∨ maxV ≤ absNum) ∧ absNum ≠ 0 then d3ExpFmt p num
  else
    let idx := shortScaleIdx absNum
    let output := shortScaleFirstOutput p num idx
    if (0 < num ∧ output.take 4 = "1000") ∨ (num < 0 ∧ output.take 5 = "-1000") then
      if idx < (shortScaleSuffixes.length : ℤ) - 1 then
        toFixedQ p (num / (1000 : ℚ) ^ (idx + 2).toNat) ++ shortScaleSuffixAt (idx + 1)
      else d3ExpFmt p num
    else output

/-- `shortScale(precision)`: eager validation, then the closure. -/
def shortScale (precision : ℚ) : Except String (ℚ → String) :=
  (verifyPrecision precision).map fun _ => fun num => shortScaleFmt ⌊precision⌋.toNat num

/-- The components of a JavaScript `Date` that the `multiTime` predicates
inspect: `day` is `getDay()` (0 = Sunday), `date` is `getDate()`
(day of month, 1-31), `month` is `getMonth()` (0 = January). -/
structure JsDate where
  milliseconds : ℕ
  seconds : ℕ
  minutes : ℕ
  hours : ℕ
  day : ℕ
  date : ℕ
  month : ℕ
deriving DecidableEq

/-- The `candidateFormats` tier list of `multiTime`, finest first, each
specifier paired with its predicate evaluated at the date. -/
def candidateFormats (d : JsDate) : List (String × Bool) :=
  [(".%L", d.milliseconds != 0),
   (":%S", d.seconds != 0),
   ("%I:%M", d.minutes != 0),
   ("%I %p", d.hours != 0),
   ("%a %d", d.day != 0 && d.date != 1),
   ("%b %d", d.date != 1),
   ("%b", d.month != 0)]

/-- The specifier `multiTime` selects: the first tier whose predicate
holds, else `"%Y"`.  (The source then renders the date with
`d3.timeFormat(specifier)`; the claims are about tier selection.) -/
def multiTime (d : JsDate) : String :=
  match (candidateFormats d).filter (fun c => c.2) with
  | [] => "%Y"
  | c :: _ => c.1

/-- The state of a `Log` scale (src/scales/logScale.ts): the constructor
parameters `base` and `minimumNumberOfTicks`, and the domain and range
stored in the backing d3 logarithmic scale.  Integer bases only (every
claim uses the default base 10). -/
structure Log where
  base : ℕ
  minimumNumberOfTicks : ℕ
  dom : ℚ × ℚ
  rng : ℚ × ℚ
deriving DecidableEq

/-- `Log._expandSingleValueDomain`: a degenerate domain `[v, v]` expands
multiplicatively to `[v/base, v*base]`; anything else is returned
unchanged. -/
def Log.expandSingleValueDomain (base : ℕ) (d : ℚ × ℚ) : ℚ × ℚ :=
  if d.1 = d.2 then (d.1 / (base : ℚ), d.2 * (base : ℚ)) else d

/-- `Log._backingScaleDomain(values)` (setter arm): forwards the values to
`this._d3Scale.domain(values)`.  The d3 log scale stores a copy of the
supplied domain without any validation (a non-positive bound is kept; the
transform merely yields NaN when later evaluated there), so the model
simply stores the pair. -/
def Log.backingScaleDomain (s : Log) (values : ℚ × ℚ) : Log :=
  { s with dom := values }

/-- Modelled from the spec: `QuantitativeScale.domain(values)`
(quantitativeScale.ts is not under src/).  Per §4.1 of the spec, setting
"stores the domain, applying degenerate-domain expansion (delegated to the
subclass) when min === max"; storage is delegated to
`_backingScaleDomain`.  The result type is `Except` so that the claimed
domain-validation failure is expressible; no path below this call throws. -/
def Log.domain (s : Log) (values : ℚ × ℚ) : Except String Log :=
  Except.ok (s.backingScaleDomain (Log.expandSingleValueDomain s.base values))

/-- `Log.setTransformationDomain(domain)`: delegates to `this.domain(domain)`. -/
def Log.setTransformationDomain (s : Log) (d : ℚ × ℚ) : Except String Log :=
  s.domain d

/-- The power-of-base tick loop of `Log._logTickGenerator`
(src/scales/logScale.ts lines 94-106): with `i = ⌊log_base min⌋` and
`j = ⌈log_base max⌉`, step `i` upward to `j` (exclusive) collecting
`base^i` when `i < j`, else step downward to `j` (exclusive). -/
def logTickPowers (base : ℕ) (dmin dmax : ℚ) : List ℚ :=
  let j := ceilLogB base dmax
  let i := floorLogB base dmin
  if i < j then (List.range (j - i).toNat).map (fun k => qpow (base : ℚ) (i + k))
  else (List.range (i - j).toNat).map (fun k => qpow (base : ℚ) (i - k))

/-- The inner `k` loop of the d3 log tick algorithm at decade `i`:
`t = k·base^i` for `k = 1, …, base-1`, skipping `t < u` (`continue`) and
stopping at the first `t > v` (`break`). -/
def fineTickRowAux (base : ℕ) (u v : ℚ) (i : ℤ) : ℕ → ℕ → List ℚ
  | 0, _ => []
  | fuel + 1, k =>
    if k < base then
      let t : ℚ := if i < 0 then (k : ℚ) / qpow (base : ℚ) (-i) else (k : ℚ) * qpow (base : ℚ) i
      if t < u then fineTickRowAux base u v i fuel (k + 1)
      else if v < t then []
      else t :: fineTickRowAux base u v i fuel (k + 1)
    else []

/-- One decade of d3 log fine ticks. -/
def fineTickRow (base : ℕ) (u v : ℚ) (i : ℤ) : List ℚ :=
  fineTickRowAux base u v i base 1

/-- All d3 log fine ticks for decades `i0 ≤ i < j`. -/
def fineTicks (base : ℕ) (u v : ℚ) (i0 j : ℤ) : List ℚ :=
  ((List.range (j - i0).toNat).map (fun o => fineTickRow base u v (i0 + o))).flatten

/-- Modelled from the spec: d3-array's `tickIncrement(start, stop, count)`
(the "native (linear-density) tick generator" the spec's fallback step
names lives in the external d3 dependency, not under src/; this follows
the d3 v5 algorithm).  `step = (stop-start)/count`; the returned increment
is `10^power` times 1, 2, 5 or 10 according to where `step/10^power` falls
relative to √2, √10 and √50 (compared here via squares: a rational can
never equal one of these irrationals), negative encoding a reciprocal
increment.  `count = 0` (JS: an infinite step) is mapped to 0, which makes
the caller return no ticks, matching the `!isFinite(step)` guard. -/
def tickIncrementQ (start stop : ℚ) (count : ℕ) : ℚ :=
  if count = 0 ∨ stop ≤ start then 0
  else
    let step := (stop - start) / (count : ℚ)
    let power := floorLogB 10 step
    let error := step / qpow 10 power
    let factor : ℚ := if 50 ≤ error ^ 2 then 10 else if 10 ≤ error ^ 2 then 5 else if 2 ≤ error ^ 2 then 2 else 1
    if 0 ≤ power then factor * qpow 10 power
    else -(qpow 10 (-power)) / factor

/-- Modelled from the spec: d3-array `ticks(start, stop, count)` for
`start < stop` — round multiples of the tick increment covering
`[start, stop]`. -/
def d3LinearTicksAsc (start stop : ℚ) (count : ℕ) : List ℚ :=
  let step := tickIncrementQ start stop count
  if step = 0 then []
  else if 0 < step then
    let i1 := ⌈start / step⌉
    let i2 := ⌊stop / step⌋
    (List.range (i2 - i1 + 1).toNat).map (fun k => ((i1 + k : ℤ) : ℚ) * step)
  else
    let s := -step
    let i1 := ⌈start * s⌉
    let i2 := ⌊stop * s⌋
    (List.range (i2 - i1 + 1).toNat).map (fun k => ((i1 + k : ℤ) : ℚ) / s)

/-- Modelled from the spec: d3-array `ticks` with the degenerate and
reversed cases of the d3 v5 source. -/
def d3LinearTicks (start stop : ℚ) (count : ℕ) : List ℚ :=
  if start = stop ∧ 0 < count then [start]
  else if stop < start then (d3LinearTicksAsc stop start count).reverse
  else d3LinearTicksAsc start stop count

/-- Modelled from the spec: the backing d3 log scale's native tick
generator `scale.ticks(count)` (d3-scale v5 `log.js`, external dependency,
not under src/) for an ascending positive domain `0 < u ≤ v`.  For an
integer base with `log_b v - log_b u < n` (equivalently `v < u·b^n`), it
collects the fine per-decade ticks for decades
`round(log_b u) - 1 ≤ i < round(log_b v) + 1` and falls back to linear
ticks when fewer than `n/2` survive.  The remaining branch of the d3
source (`j - i ≥ n`) computes linear ticks over the irrational interval
`[log_b u, log_b v]` and is outside the rational embedding; no claim
reaches it, and it is modelled as the empty list. -/
def d3LogTicksAsc (base : ℕ) (u v : ℚ) (n : ℕ) : List ℚ :=
  if 0 < u ∧ v < u * (base : ℚ) ^ n then
    let i := roundLogB base u - 1
    let j := roundLogB base v + 1
    let z := fineTicks base u v i j
    if z.length * 2 < n then d3LinearTicks u v n else z
  else []

/-- Modelled from the spec: d3 `log.ticks(count)` with the reversed-domain
wrapper of the d3 source. -/
def d3LogTicks (base : ℕ) (u v : ℚ) (n : ℕ) : List ℚ :=
  if v < u then (d3LogTicksAsc base v u n).reverse else d3LogTicksAsc base u v n

/-- `Log._logTickGenerator` (src/scales/logScale.ts lines 90-113): the
power-of-base tick loop over the scale's current domain, discarded in
favour of `this._d3Scale.ticks(minimumNumberOfTicks)` when it produced
fewer than `minimumNumberOfTicks` entries. -/
def Log.logTickGenerator (s : Log) : List ℚ :=
  let ticks := logTickPowers s.base s.dom.1 s.dom.2
  if ticks.length < s.minimumNumberOfTicks then
    d3LogTicks s.base s.dom.1 s.dom.2 s.minimumNumberOfTicks
  else ticks

/-- Modelled from the spec: the backing d3 logarithmic transform
(`scale(value)` of src/scales/logScale.ts delegates to the external
`this._d3Scale`, which maps `x ↦ r0 + (log x - log x0)/(log x1 - log x0)
· (r1 - r0)` for domain `[x0, x1]` and range `[r0, r1]`), over exact
reals: the claim's "within floating-point tolerance" becomes exact
equality. -/
noncomputable def Log.scale (x0 x1 r0 r1 x : ℝ) : ℝ :=
  r0 + (Real.log x - Real.log x0) / (Real.log x1 - Real.log x0) * (r1 - r0)

/-- Modelled from the spec: the backing d3 logarithmic inverse
(`invert(value)` delegates to `this._d3Scale.invert`, which maps
`v ↦ exp(log x0 + (v - r0)/(r1 - r0) · (log x1 - log x0))`). -/
noncomputable def Log.invert (x0 x1 r0 r1 v : ℝ) : ℝ :=
  Real.exp (Real.log x0 + (v - r0) / (r1 - r0) * (Real.log x1 - Real.log x0))

/-- Claim C1: for every valid (strictly positive, non-degenerate) domain
`[x0, x1]` and range `[r0, r1]` with `r0 ≠ r1` on a logarithmic scale,
`invert` is the inverse of `scale`: `scale (invert v) = v` for every `v`,
and `invert (scale x) = x` for every `x` in the domain (exact equality in
the real-number model, hence within floating-point tolerance). -/
theorem claim_C1_log_scale_invert_roundtrip
    (x0 x1 r0 r1 v x : ℝ) (hx0 : 0 < x0) (hx1 : 0 < x1) (hx01 : x0 ≠ x1)
    (hr : r0 ≠ r1) (hlo : x0 ≤ x) (hhi : x ≤ x1) :
    Log.scale x0 x1 r0 r1 (Log.invert x0 x1 r0 r1 v) = v ∧
    Log.invert x0 x1 r0 r1 (Log.scale x0 x1 r0 r1 x) = x := by
  have hxpos : 0 < x := lt_of_lt_of_le hx0 hlo
  have hlog : Real.log x0 ≠ Real.log x1 := by
    intro h
    apply hx01
    have h2 := congrArg Real.exp h
    rwa [Real.exp_log hx0, Real.exp_log hx1] at h2
  have hL : Real.log x1 - Real.log x0 ≠ 0 := sub_ne_zero.mpr (Ne.symm hlog)
  have hR : r1 - r0 ≠ 0 := sub_ne_zero.mpr (Ne.symm hr)
  constructor
  · unfold Log.scale Log.invert
    rw [Real.log_exp]
    field_simp
    ring
  · unfold Log.scale Log.invert
    have harg : Real.log x0 +
        (r0 + (Real.log x - Real.log x0) / (Real.log x1 - Real.log x0) * (r1 - r0) - r0) /
          (r1 - r0) * (Real.log x1 - Real.log x0) = Real.log x := by
      field_simp
      ring
    rw [harg, Real.exp_log hxpos]

/-- Witness for C1 at the concrete scale with domain `[1, 2]`, range
`[0, 1]`, range point `1/3` and domain point `3/2`. -/
theorem claim_C1_witness :
    (0 : ℝ) < 1 ∧ (0 : ℝ) < 2 ∧ (1 : ℝ) ≠ 2 ∧ (0 : ℝ) ≠ 1 ∧
    (1 : ℝ) ≤ 3 / 2 ∧ (3 / 2 : ℝ) ≤ 2 ∧
    Log.scale 1 2 0 1 (Log.invert 1 2 0 1 (1 / 3)) = 1 / 3 ∧
    Log.invert 1 2 0 1 (Log.scale 1 2 0 1 (3 / 2)) = 3 / 2 :=
  ⟨one_pos, two_pos, one_lt_two.ne, zero_ne_one, by norm_num, by norm_num,
   (claim_C1_log_scale_invert_roundtrip 1 2 0 1 (1 / 3) (3 / 2) one_pos two_pos
     one_lt_two.ne zero_ne_one (by norm_num) (by norm_num)).1,
   (claim_C1_log_scale_invert_roundtrip 1 2 0 1 (1 / 3) (3 / 2) one_pos two_pos
     one_lt_two.ne zero_ne_one (by norm_num) (by norm_num)).2⟩

/-- Claim C2: for a logarithmic scale constructed with base 10 and domain
`[1, 1000]` (and the default `minimumNumberOfTicks = 4`), the installed
tick generator returns a sequence containing at least 1, 10, 100 and 1000
in ascending order.  (The power loop alone yields `[1, 10, 100]`; the
generator falls back to the backing d3 tick generator, whose output
contains all four powers.) -/
theorem claim_C2_base10_ticks_contain_powers :
    [1, 10, 100, 1000].Sublist (Log.logTickGenerator ⟨10, 4, (1, 1000), (0, 1)⟩) := by
  decide

/-- Claim C3: for a logarithmic scale with base 10, domain `[1, 10]` and
`minimumNumberOfTicks = 4`, the power-of-base tick set has fewer than 4
entries, the generator falls back to the backing transform's native tick
generator requesting 4 ticks, and the result has at least 4 ticks. -/
theorem claim_C3_narrow_domain_fallback :
    (logTickPowers 10 1 10).length < 4 ∧
    Log.logTickGenerator ⟨10, 4, (1, 10), (0, 1)⟩ = d3LogTicks 10 1 10 4 ∧
    4 ≤ (Log.logTickGenerator ⟨10, 4, (1, 10), (0, 1)⟩).length := by
  decide

/-- Counterexample to claim C4: setting the domain `(-1, 10)` (negative
lower bound) on a base-10 logarithmic scale succeeds and stores the domain
verbatim — no domain-validation error is raised anywhere on the path. -/
theorem claim_C4_counterexample :
    (Log.setTransformationDomain ⟨10, 4, (1, 10), (0, 1)⟩ (-1, 10)).isOk = true ∧
    Log.setTransformationDomain ⟨10, 4, (1, 10), (0, 1)⟩ (-1, 10) =
      Except.ok ⟨10, 4, (-1, 10), (0, 1)⟩ :=
  ⟨rfl, rfl⟩

/-- Amended claim C4: setting any non-degenerate domain on the logarithmic
scale — including one with a bound `≤ 0` — never fails; the supplied pair
is stored unchanged (not clamped or corrected).  (A degenerate pair is
first expanded multiplicatively by `_expandSingleValueDomain`.) -/
theorem claim_C4_amended_no_validation (s : Log) (d : ℚ × ℚ) (h : d.1 ≠ d.2) :
    Log.setTransformationDomain s d = Except.ok { s with dom := d } := by
  unfold Log.setTransformationDomain Log.domain Log.backingScaleDomain
    Log.expandSingleValueDomain
  rw [if_neg h]

/-- Witness for the amended C4 at the concrete invalid domain `(-1, 10)`. -/
theorem claim_C4_witness :
    ((-1 : ℚ), (10 : ℚ)).1 ≠ ((-1 : ℚ), (10 : ℚ)).2 ∧
    Log.setTransformationDomain ⟨10, 4, (1, 10), (0, 1)⟩ (-1, 10) =
      Except.ok ⟨10, 4, (-1, 10), (0, 1)⟩ :=
  ⟨by decide,
   claim_C4_amended_no_validation ⟨10, 4, (1, 10), (0, 1)⟩ (-1, 10) (by decide)⟩

/-- Claim C5: each of `fixed p` and `general p` is constructed without
error exactly when `p` is an integer in `[0, 20]`; otherwise (negative,
above 20, or non-integer) each construction itself fails with a range
error, before any value is formatted. -/
theorem exceptMapIsOk {ε α β : Type} (f : α → β) (e : Except ε α) :
    (e.map f).isOk = e.isOk := by
  cases e <;> rfl

theorem verifyPrecisionIsOk (p : ℚ) :
    (verifyPrecision p).isOk = true ↔ (0 ≤ p ∧ p ≤ 20 ∧ p = (⌊p⌋ : ℚ)) := by
  unfold verifyPrecision
  by_cases hA : p < 0 ∨ p > 20
  · rw [if_pos hA]
    constructor
    · intro h
      exact absurd h (by decide)
    · intro hc
      rcases hA with h | h
      · exact absurd hc.1 (not_le.mpr h)
      · exact absurd hc.2.1 (not_le.mpr h)
  · rw [if_neg hA]
    push_neg at hA
    by_cases hB : p ≠ (⌊p⌋ : ℚ)
    · rw [if_pos hB]
      constructor
      · intro h
        exact absurd h (by decide)
      · intro hc
        exact absurd hc.2.2 hB
    · rw [if_neg hB]
      push_neg at hB
      constructor
      · intro _
        exact ⟨hA.1, hA.2, hB⟩
      · intro _
        rfl

theorem claim_C5_precision_validation (p : ℚ) :
    ((fixed p).isOk = true ↔ (0 ≤ p ∧ p ≤ 20 ∧ p = (⌊p⌋ : ℚ))) ∧
    ((general p).isOk = true ↔ (0 ≤ p ∧ p ≤ 20 ∧ p = (⌊p⌋ : ℚ))) := by
  unfold fixed general
  rw [exceptMapIsOk, exceptMapIsOk]
  exact ⟨verifyPrecisionIsOk p, verifyPrecisionIsOk p⟩

/-- Witness for C5 at the claim's concrete precisions -1, 21, 3/2 (each
constructor rejects each of them at construction) and at the valid
integer precision 3 (each constructor succeeds). -/
theorem claim_C5_witness :
    ¬((fixed (-1)).isOk = true) ∧ ¬((general (-1)).isOk = true) ∧
    ¬((fixed 21).isOk = true) ∧ ¬((general 21).isOk = true) ∧
    ¬((fixed (3 / 2)).isOk = true) ∧ ¬((general (3 / 2)).isOk = true) ∧
    (fixed 3).isOk = true ∧ (general 3).isOk = true :=
  ⟨fun h => by have hc := (claim_C5_precision_validation (-1)).1.mp h; revert hc; decide,
   fun h => by have hc := (claim_C5_precision_validation (-1)).2.mp h; revert hc; decide,
   fun h => by have hc := (claim_C5_precision_validation 21).1.mp h; revert hc; decide,
   fun h => by have hc := (claim_C5_precision_validation 21).2.mp h; revert hc; decide,
   fun h => by have hc := (claim_C5_precision_validation (3 / 2)).1.mp h; revert hc; decide,
   fun h => by have hc := (claim_C5_precision_validation (3 / 2)).2.mp h; revert hc; decide,
   (claim_C5_precision_validation 3).1.mpr (by decide),
   (claim_C5_precision_validation 3).2.mpr (by decide)⟩

/-- Claim C6 (code bug): the special cases hold (`exponential(3)(0) = "0"`,
`exponential(3)(2500) = "2.5×10³"`), and the intended exponent
`e = ⌊log₁₀ 1000⌋ = 3` would indeed produce `"10³"`/`"-10³"` — but the
source computes `e = Math.floor(Math.log(1000)/Math.log(10)) =
Math.floor(2.9999999999999996) = 2` on IEEE doubles, so
`exponential(3)(±1000)` actually renders as `"±10×10²"`, not `"±10³"`. -/
theorem claim_C6_exponential_float_slip :
    exponentialJs1000 = "10×10²" ∧ exponentialJs1000 ≠ "10³" ∧
    exponentialJsNeg1000 = "-10×10²" ∧
    exponentialFmt 3 0 = "0" ∧ exponentialFmt 3 1000 = "10³" ∧
    exponentialFmt 3 (-1000) = "-10³" ∧ exponentialFmt 3 2500 = "2.5×10³" := by
  decide

/-- Counterexample to claim C7: at precision 3, the inputs `10^15`
(|num| at the claimed upper cutoff) and `1/1000` (|num| at the lower
endpoint of the claimed open interval) are not rendered scientifically:
the code's actual cutoff is `10^18 = 1000^(suffixes.length+1)`, and the
lower comparison is strict (`absNum < 10^-p`). -/
theorem claim_C7_counterexample :
    shortScaleFmt 3 (10 ^ 15) = "1.000Q" ∧
    shortScaleFmt 3 (10 ^ 15) ≠ d3ExpFmt 3 (10 ^ 15) ∧
    shortScaleFmt 3 (1 / 1000) = "0.001" ∧
    shortScaleFmt 3 (1 / 1000) ≠ d3ExpFmt 3 (1 / 1000) := by
  decide

/-- Amended claim C7: for every precision `p` and every `num ≠ 0` with
`|num| < 10^-p` or `|num| ≥ 10^18`, `shortScale p` returns the
scientific-notation rendering of `num`. -/
theorem claim_C7_amended_scientific_range (p : ℕ) (num : ℚ) (h0 : num ≠ 0)
    (h : |num| < qpow 10 (-(p : ℤ)) ∨
      (10 : ℚ) ^ (3 * (shortScaleSuffixes.length + 1)) ≤ |num|) :
    shortScaleFmt p num = d3ExpFmt p num := by
  simp only [shortScaleFmt]
  rw [if_pos ⟨h, abs_ne_zero.mpr h0⟩]

/-- Witness for the amended C7 at precision 3 and `num = 10^18`. -/
theorem claim_C7_witness :
    ((10 : ℚ) ^ 18 ≠ 0) ∧
    (|(10 : ℚ) ^ 18| < qpow 10 (-((3 : ℕ) : ℤ)) ∨
      (10 : ℚ) ^ (3 * (shortScaleSuffixes.length + 1)) ≤ |(10 : ℚ) ^ 18|) ∧
    shortScaleFmt 3 ((10 : ℚ) ^ 18) = d3ExpFmt 3 ((10 : ℚ) ^ 18) :=
  ⟨by decide, by decide,
   claim_C7_amended_scientific_range 3 ((10 : ℚ) ^ 18) (by decide) (by decide)⟩

/-- Claim C8: `shortScale(3)(999999)` renders as `"999.999K"` — not
`"1000K"` — and, in general, whenever the first-pass fixed-precision
output of a positive in-range value displays as `1000…`, the formatter
bumps it to the next suffix tier, or to scientific notation when already
at the top tier. -/
theorem claim_C8_shortScale_no_1000K :
    shortScaleFmt 3 999999 = "999.999K" ∧
    shortScaleFmt 3 999999 ≠ "1000K" ∧
    (∀ (p : ℕ) (num : ℚ),
      0 < num →
      ¬(|num| < qpow 10 (-(p : ℤ)) ∨
        (10 : ℚ) ^ (3 * (shortScaleSuffixes.length + 1)) ≤ |num|) →
      (shortScaleFirstOutput p num (shortScaleIdx |num|)).take 4 = "1000" →
      shortScaleFmt p num =
        (if shortScaleIdx |num| < (shortScaleSuffixes.length : ℤ) - 1 then
          toFixedQ p (num / (1000 : ℚ) ^ (shortScaleIdx |num| + 2).toNat) ++
            shortScaleSuffixAt (shortScaleIdx |num| + 1)
        else d3ExpFmt p num)) := by
  refine ⟨by decide, by decide, ?_⟩
  intro p num hpos hrange htake
  simp only [shortScaleFmt]
  rw [if_neg (fun hc => hrange hc.1)]
  rw [if_pos (Or.inl ⟨hpos, htake⟩)]

/-- Witness for the bump clause of C8 at precision 2 and input 999999:
the first pass displays `"1000.00"`, and the formatter re-renders at the
next tier as `"1.00M"`. -/
theorem claim_C8_witness :
    (0 : ℚ) < 999999 ∧
    ¬(|(999999 : ℚ)| < qpow 10 (-((2 : ℕ) : ℤ)) ∨
      (10 : ℚ) ^ (3 * (shortScaleSuffixes.length + 1)) ≤ |(999999 : ℚ)|) ∧
    (shortScaleFirstOutput 2 999999 (shortScaleIdx |(999999 : ℚ)|)).take 4 = "1000" ∧
    shortScaleFmt 2 999999 = "1.00M" := by
  refine ⟨by decide, by decide, by decide, ?_⟩
  rw [claim_C8_shortScale_no_1000K.2.2 2 999999 (by decide) (by decide) (by decide)]
  decide

/-- Claim C9: `percentage(0)(0.1)` returns exactly `"10%"`: the closure
multiplies by 100 and rounds through the integer power-of-ten scale
derived from the string representation of the input, so no drift artifact
is produced. -/
theorem claim_C9_percentage_drift : percentageFmt 0 (1 / 10) = "10%" := by
  decide

/-- Claim C10: the `multiTime` formatter never selects the `"%a %d"`
(weekday-plus-day) tier for a Sunday (`getDay() = 0`), because that
tier's predicate requires a nonzero day-of-week; a Sunday with zero
milliseconds/seconds/minutes/hours and day-of-month ≠ 1 therefore gets
the `"%b %d"` (month-plus-day) tier. -/
theorem claim_C10_multiTime_sunday :
    (∀ d : JsDate, d.day = 0 → multiTime d ≠ "%a %d") ∧
    (∀ d : JsDate, d.milliseconds = 0 → d.seconds = 0 → d.minutes = 0 →
      d.hours = 0 → d.day = 0 → d.date ≠ 1 → multiTime d = "%b %d") := by
  constructor
  · intro d h
    unfold multiTime candidateFormats
    rw [h]
    cases hms : (d.milliseconds != 0) <;> cases hs : (d.seconds != 0) <;>
      cases hm : (d.minutes != 0) <;> cases hh : (d.hours != 0) <;>
      cases hdt : (d.date != 1) <;> cases hmo : (d.month != 0) <;>
      simp [List.filter, hms, hs, hm, hh, hdt, hmo]
  · intro d h1 h2 h3 h4 h5 h6
    have hbd : (d.date != 1) = true := bne_iff_ne.mpr h6
    unfold multiTime candidateFormats
    rw [h1, h2, h3, h4, h5, hbd]
    simp [List.filter]

/-- Witness for C10 at a concrete Sunday (all finer components zero,
day-of-month 15). -/
theorem claim_C10_witness :
    multiTime ⟨0, 0, 0, 0, 0, 15, 5⟩ ≠ "%a %d" ∧
    multiTime ⟨0, 0, 0, 0, 0, 15, 5⟩ = "%b %d" :=
  ⟨claim_C10_multiTime_sunday.1 ⟨0, 0, 0, 0, 0, 15, 5⟩ rfl,
   claim_C10_multiTime_sunday.2 ⟨0, 0, 0, 0, 0, 15, 5⟩ rfl rfl rfl rfl rfl (by decide)⟩
